import Mathlib

/-!
Verification of the simulation-station host harness (Rust sources under
`src/`).  The file shallowly embeds the data model and operations of
`src/lib.rs`, `src/simple_grid.rs` and `src/p0014.rs`:

* `f32` arithmetic of the fixed-timestep scheduler is modelled exactly over
  the rationals `ℚ`;
* the zero-capacity (rendezvous) hand-off channel of `AsyncSim` is modelled
  by a single optional slot that a blocked sender occupies — precisely the
  capacity-zero discipline of `std::sync::mpsc::sync_channel(0)`;
* Rust `Vec<u8>` pixel buffers become `List ℕ` with byte values;
* the trait objects' opaque closure fields (spawner, ui drawer) are dropped;
  the renderer closures are modelled concretely where a claim needs them.
-/

namespace SimStation

/-- `SimConfig` from `src/lib.rs` (lines 9–14); the `f32` fields are
modelled as rationals. -/
structure SimConfig where
  min_speed : ℚ
  max_speed : ℚ
  default_speed : ℚ
deriving DecidableEq, Repr

/-- `Default for SimConfig` (`src/lib.rs` lines 16–24). -/
def SimConfig.default : SimConfig :=
  { min_speed := 1, max_speed := 10000, default_speed := 60 }

/-- The `SimConfig` passed when the Collatz capability is constructed
(`src/lib.rs` lines 158–162). -/
def collatzConfig : SimConfig :=
  { min_speed := 1, max_speed := 50000, default_speed := 10000 }

/-- The bounds of the host's rate slider, hard-coded in
`egui::Slider::new(&mut self.updates_per_second, 0.5..=10_000.0)`
(`src/lib.rs` line 183). -/
def sliderRange : ℚ × ℚ := (1/2, 10000)

/-! ## The async bridge (`AsyncSim`, `src/lib.rs` lines 45–109)

The hand-off channel created by `sync_channel(0)` is a rendezvous: a sender
blocks in `send` until the receiver takes the value, so at any instant at
most one value is offered.  We model the channel as an optional slot
(`some v` = a sender is blocked offering `v`) plus a connectivity flag
(`false` = all senders dropped).  `try_recv` on such a channel succeeds
exactly when a sender is currently blocked in `send`. -/

/-- The two error cases of `std::sync::mpsc::Receiver::try_recv`. -/
inductive TryRecvError where
  | empty
  | disconnected
deriving DecidableEq, Repr

/-- Model of the zero-capacity channel: `slot` holds the value a blocked
sender is currently offering (at most one, by construction of the type);
`connected` is false once every sender is gone. -/
structure Chan (T : Type) where
  slot : Option T
  connected : Bool
deriving DecidableEq, Repr

/-- A channel with no pending value and a live sender, as returned by
`sync_channel(0)`. -/
def Chan.fresh (T : Type) : Chan T := { slot := none, connected := true }

/-- `Receiver::try_recv`: take the offered value if one is waiting,
otherwise report `Empty` (sender alive) or `Disconnected` (sender gone).
Never blocks: it is a total function of the channel state. -/
def Chan.tryRecv {T : Type} (c : Chan T) : Except TryRecvError T × Chan T :=
  match c.slot with
  | some v => (Except.ok v, { c with slot := none })
  | none =>
      (Except.error (if c.connected then TryRecvError.empty
                     else TryRecvError.disconnected), c)

/-- `AsyncSim<T>` (`src/lib.rs` lines 45–53).  The `receiver:
Option<Receiver<T>>` field is modelled by `hasReceiver` (the channel state
itself is passed explicitly to the operations); the opaque `spawner`,
`renderer` and `ui_draw` closures are not part of the state here —
rendering is modelled separately where needed. -/
structure AsyncSim (T : Type) where
  name : String
  config : SimConfig
  state : T
  hasReceiver : Bool
deriving DecidableEq, Repr

/-- `AsyncSim::update` (`src/lib.rs` lines 82–88): if a receiver is
installed, poll it with `try_recv`; on `Ok(new_state)` wholly replace the
current state; on any `Err` (empty or disconnected) leave everything
unchanged.  Returns the bridge together with the channel it polled. -/
def AsyncSim.update {T : Type} (s : AsyncSim T) (c : Chan T) :
    AsyncSim T × Chan T :=
  if s.hasReceiver then
    match c.tryRecv with
    | (Except.ok v, c2) => ({ s with state := v }, c2)
    | (Except.error _, c2) => (s, c2)
  else (s, c)

/-- `AsyncSim::reset` (`src/lib.rs` lines 90–100): make a fresh
`sync_channel(0)`, install its receiving half, replace the state with
`T::default()`, and spawn a new worker (the spawn itself has no effect on
the bridge's state, so it contributes only the fresh channel here). -/
def AsyncSim.reset {T : Type} [Inhabited T] (s : AsyncSim T) :
    AsyncSim T × Chan T :=
  ({ s with state := default, hasReceiver := true }, Chan.fresh T)

/-- `AsyncSim::new` (`src/lib.rs` lines 56–74): build the record with
`state: T::default()` and `receiver: None`, then immediately `reset()`. -/
def AsyncSim.new (T : Type) [Inhabited T] (name : String) (config : SimConfig) :
    AsyncSim T × Chan T :=
  AsyncSim.reset
    { name := name, config := config, state := default, hasReceiver := false }

/-! ## Worker/bridge hand-off system (for the ordering claim)

`reset` spawns a worker that runs the recipe: it produces snapshots one at a
time and calls `send` on the zero-capacity channel after each; `send` blocks
until the host's `update` drains the value (`src/p0014.rs` line 47 is the
concrete instance).  A system state is: the list of snapshots the worker has
yet to produce, the channel, and the bridge.  "The worker keeps pace" means
that by the time the host polls, the worker is already blocked in `send`
offering its next value; `Sys.step` is one such round: the worker (if the
slot is free and it has values left) blocks in `send`, then the host calls
`AsyncSim::update` once. -/

/-- Number of produced-but-unconsumed snapshots sitting in the channel. -/
def Chan.inFlight {T : Type} (c : Chan T) : ℕ := c.slot.toList.length

/-- The worker/channel/bridge system. -/
structure Sys (T : Type) where
  pending : List T
  chan : Chan T
  bridge : AsyncSim T

/-- The worker's blocking `send`: if the rendezvous slot is free and the
worker still has a snapshot to hand over, it occupies the slot (and is now
blocked inside `send`); otherwise nothing changes (it stays blocked, or has
nothing left to produce). -/
def Sys.workerOffer {T : Type} (s : Sys T) : Sys T :=
  match s.chan.slot, s.pending with
  | none, v :: rest =>
      { s with pending := rest, chan := { s.chan with slot := some v } }
  | _, _ => s

/-- One keep-pace round: the worker blocks in `send` (if it can), then the
host calls `AsyncSim::update` once. -/
def Sys.step {T : Type} (s : Sys T) : Sys T :=
  let s1 := s.workerOffer
  let p := s1.bridge.update s1.chan
  { s1 with bridge := p.1, chan := p.2 }

/-- The system right after `AsyncSim::new`: a freshly constructed bridge, a
fresh rendezvous channel, and a worker about to produce `vs` in order. -/
def Sys.start (T : Type) [Inhabited T] (vs : List T) : Sys T :=
  { pending := vs,
    chan := (AsyncSim.new T "" SimConfig.default).2,
    bridge := (AsyncSim.new T "" SimConfig.default).1 }

/-- The bridge state observed after `n` keep-pace `update()` rounds. -/
def Sys.observe (T : Type) [Inhabited T] (vs : List T) (n : ℕ) : T :=
  (Sys.step^[n] (Sys.start T vs)).bridge.state

/-! ## The fixed-timestep scheduler (`App`, `src/lib.rs` lines 111–230)

The scheduler state and the per-frame scheduling pass of
`eframe::App::update` (lines 193–211).  The `f32` values are modelled
exactly over `ℚ`.  Only the scheduling-relevant fields of `App` are kept
(`current_sim` and `texture` do not affect the claims about call counts and
the accumulator). -/

/-- The catch-up loop of the scheduling pass (`src/lib.rs` lines 205–210):
`while time_accumulator >= step_duration && loops < 5000 { update();
time_accumulator -= step_duration; loops += 1 }`.  Returns the final
accumulator and the loop count, i.e. the number of `update()` calls
issued. -/
def schedLoop (stepDur : ℚ) (acc : ℚ) (loops : ℕ) : ℚ × ℕ :=
  if h : stepDur ≤ acc ∧ loops < 5000 then
    schedLoop stepDur (acc - stepDur) (loops + 1)
  else (acc, loops)
termination_by 5000 - loops
decreasing_by
  simp_wf
  omega

/-- Scheduler-relevant state of `App` (`src/lib.rs` lines 111–117). -/
structure App where
  is_paused : Bool
  updates_per_second : ℚ
  time_accumulator : ℚ
deriving DecidableEq, Repr

/-- `App::new` (`src/lib.rs` lines 120–128). -/
def App.new : App :=
  { is_paused := false, updates_per_second := 60, time_accumulator := 0 }

/-- `App::load_sim` (`src/lib.rs` lines 130–134): loading a capability sets
the active rate to the capability's `default_speed` (and swaps the
simulation, which has no scheduler-visible state here). -/
def App.loadSim (a : App) (cfg : SimConfig) : App :=
  { a with updates_per_second := cfg.default_speed }

/-- One scheduling pass of `eframe::App::update` (`src/lib.rs` lines
193–211), given the frame's elapsed time `dt` (`stable_dt`): if paused,
nothing happens and no `update()` is issued; otherwise the accumulator
grows by `dt`, `step_duration = 1 / updates_per_second`, and the catch-up
loop runs.  Returns the new state and the number of `update()` calls
issued this pass. -/
def App.frame (a : App) (dt : ℚ) : App × ℕ :=
  if a.is_paused then (a, 0)
  else
    let r := schedLoop (1 / a.updates_per_second) (a.time_accumulator + dt) 0
    ({ a with time_accumulator := r.1 }, r.2)

/-- `n` consecutive frames, each with elapsed time `dt`; returns the final
state and the total number of `update()` calls issued. -/
def App.runFrames (a : App) (dt : ℚ) : ℕ → App × ℕ
  | 0 => (a, 0)
  | n + 1 =>
      let r := a.frame dt
      let s := r.1.runFrames dt n
      (s.1, r.2 + s.2)

/-! ## Pixel buffers and the concrete simulations

`Vec<u8>` buffers become `List ℕ` of byte values.  The host allocates
`vec![0; 400 * 300 * 3]` each frame (`src/lib.rs` lines 214–216). -/

/-- `NoSim::render` (`src/lib.rs` line 42): `buffer.fill(0)` overwrites
every existing byte with `0`; the length stays whatever it was. -/
def NoSim.render (buffer : List ℕ) : List ℕ := buffer.map (fun _ => 0)

/-- `Grid<T>` (`src/simple_grid.rs` lines 4–9). -/
structure Grid (T : Type) where
  width : ℕ
  height : ℕ
  cells : List T
deriving DecidableEq, Repr

/-- `Grid::new` (`src/simple_grid.rs` lines 11–18): `width * height`
default-valued cells. -/
def Grid.new (T : Type) [Inhabited T] (width height : ℕ) : Grid T :=
  { width := width, height := height,
    cells := List.replicate (width * height) default }

/-- `PixelFillSim` (`src/simple_grid.rs` lines 21–24). -/
structure PixelFillSim where
  grid : Grid ℕ
  cursor_idx : ℕ
deriving DecidableEq, Repr

/-- `PixelFillSim::reset` (`src/simple_grid.rs` lines 42–45): zero every
cell, cursor back to 0. -/
def PixelFillSim.reset (s : PixelFillSim) : PixelFillSim :=
  { s with grid := { s.grid with cells := s.grid.cells.map (fun _ => 0) },
           cursor_idx := 0 }

/-- `PixelFillSim::new` (`src/simple_grid.rs` lines 26–34): a 400×300 grid
with cursor 0, then `reset`. -/
def PixelFillSim.new : PixelFillSim :=
  PixelFillSim.reset { grid := Grid.new ℕ 400 300, cursor_idx := 0 }

/-- `PixelFillSim::update` (`src/simple_grid.rs` lines 47–52): while the
cursor is in bounds, set the cell under it to 255 and advance; once the
grid is full, do nothing. -/
def PixelFillSim.update (s : PixelFillSim) : PixelFillSim :=
  if s.cursor_idx < s.grid.cells.length then
    { s with
        grid := { s.grid with cells := s.grid.cells.set s.cursor_idx 255 },
        cursor_idx := s.cursor_idx + 1 }
  else s

/-- `PixelFillSim::render` (`src/simple_grid.rs` lines 54–63):
`buffer.clear()` then, per cell, append the cyan triple for a filled cell
and the dark-grey triple otherwise — the result never depends on the
incoming buffer contents (hence the unused argument). -/
def PixelFillSim.render (s : PixelFillSim) (_buffer : List ℕ) : List ℕ :=
  s.grid.cells.foldr
    (fun val acc =>
      (if val > 0 then [0, 255, 255] else [20, 20, 20]) ++ acc) []

/-- `CollatzState` (`src/p0014.rs` lines 4–11); `u64` fields as `ℕ`. -/
structure CollatzState where
  current_num : ℕ
  current_len : ℕ
  best_num : ℕ
  best_len : ℕ
  history : List ℕ
deriving DecidableEq, Repr

instance : Inhabited CollatzState := ⟨⟨0, 0, 0, 0, []⟩⟩

/-- The guarded three-byte write of `p0014::render` (`src/p0014.rs` lines
71–79): write R, G, B at `idx`, `idx+1`, `idx+2` only when
`idx + 2 < buffer.len()`. -/
def writeRGB (buf : List ℕ) (idx r g b : ℕ) : List ℕ :=
  if idx + 2 < buf.length then
    ((buf.set idx r).set (idx + 1) g).set (idx + 2) b
  else buf

/-- One history bar of `p0014::render` (`src/p0014.rs` lines 60–81): bar
height `(len / 525) * 300` truncated (the `f32` computation modelled
exactly over ℚ, whose floor is the natural division below), drawn
bottom-up with the blue/cyan gradient; `intensity` models
`(y as u8).saturating_mul(2)`. -/
def drawColumn (buf : List ℕ) (x len : ℕ) : List ℕ :=
  (List.range (min (len * 300 / 525) 300)).foldl
    (fun b y =>
      writeRGB b ((300 - 1 - y) * 400 + x) 0 (min (y % 256 * 2) 255)
        (255 - min (y % 256 * 2) 255 / 2))
    buf

/-- `p0014::render` (`src/p0014.rs` lines 51–82): clear to black
(`buffer.fill(0)`), then draw one bar per history entry, stopping at
column 400 (`if x >= w break`). -/
def p0014.render (state : CollatzState) (buffer : List ℕ) : List ℕ :=
  ((state.history.take 400).enum).foldl
    (fun b p => drawColumn b p.1 p.2)
    (buffer.map (fun _ => 0))

/-- `AsyncSim::render` (`src/lib.rs` lines 102–104): pure delegation of
the stored renderer closure to the current snapshot.  The closure is not a
field of the embedded record, so it is passed explicitly. -/
def AsyncSim.render {T : Type} (renderer : T → List ℕ → List ℕ)
    (s : AsyncSim T) (buffer : List ℕ) : List ℕ :=
  renderer s.state buffer

end SimStation

namespace SimStation

/-- One keep-pace round with a value pending and a drained rendezvous:
the bridge takes exactly the next value. -/
theorem sys_step_cons {T : Type} (b : AsyncSim T) (hb : b.hasReceiver = true)
    (v : T) (rest : List T) :
    Sys.step { pending := v :: rest, chan := Chan.fresh T, bridge := b } =
      { pending := rest, chan := Chan.fresh T,
        bridge := { b with state := v } } := by
  simp [Sys.step, Sys.workerOffer, AsyncSim.update, Chan.tryRecv, Chan.fresh,
    hb]

/-- One keep-pace round with nothing left to produce: everything is
unchanged (the poll comes back empty and that is not an error). -/
theorem sys_step_nil {T : Type} (b : AsyncSim T) :
    Sys.step { pending := [], chan := Chan.fresh T, bridge := b } =
      { pending := [], chan := Chan.fresh T, bridge := b } := by
  by_cases hb : b.hasReceiver = true <;>
    simp [Sys.step, Sys.workerOffer, AsyncSim.update, Chan.tryRecv,
      Chan.fresh, hb]

/-- Characterization of `n` keep-pace rounds from a drained rendezvous:
the worker's list is consumed from the front, one value per round, the
channel ends each round drained, and the bridge state walks through the
produced prefix (staying at the last value once the list is exhausted). -/
theorem sys_iterate_eq {T : Type} :
    ∀ (n : ℕ) (vs : List T) (b : AsyncSim T), b.hasReceiver = true →
      Sys.step^[n] { pending := vs, chan := Chan.fresh T, bridge := b } =
        { pending := vs.drop n, chan := Chan.fresh T,
          bridge :=
            { b with state := (b.state :: vs).getD (min n vs.length) b.state } } := by
  intro n
  induction n with
  | zero =>
      intro vs b hb
      simp
  | succ n ih =>
      intro vs b hb
      rw [Function.iterate_succ_apply]
      cases vs with
      | nil =>
          rw [sys_step_nil, ih [] b hb]
          simp
      | cons v rest =>
          rw [sys_step_cons b hb v rest, ih rest { b with state := v } hb]
          simp only [List.drop_succ_cons, List.length_cons]
          have hmin : (n + 1) ⊓ (rest.length + 1) = n ⊓ rest.length + 1 := by
            omega
          rw [hmin, List.getD_cons_succ]
          have h1 : n ⊓ rest.length < (v :: rest).length := by
            simp [Nat.lt_succ_iff, min_le_right]
          rw [List.getD_eq_getElem _ _ h1, List.getD_eq_getElem _ _ h1]

/-- C2: over the zero-capacity channel, with the worker keeping pace, the
states observed by consecutive `update()` calls are `default, v1, v2, …`:
the initial observation is the default state, the `(n+1)`-st observation is
exactly the `n`-th produced snapshot (production order, no skipping), once
the worker is done the last snapshot repeats forever, and at every
reachable instant — after each round, and mid-round while the worker is
blocked in `send` — at most one unconsumed snapshot is in flight. -/
theorem asyncSim_rendezvous_order {T : Type} [Inhabited T] (vs : List T) :
    Sys.observe T vs 0 = (default : T) ∧
    (∀ (n : ℕ) (h : n < vs.length),
      Sys.observe T vs (n + 1) = vs.get ⟨n, h⟩) ∧
    (∀ n : ℕ, vs.length ≤ n →
      Sys.observe T vs n = Sys.observe T vs vs.length) ∧
    (∀ n : ℕ, ((Sys.step^[n] (Sys.start T vs)).chan).inFlight ≤ 1 ∧
      ((Sys.step^[n] (Sys.start T vs)).workerOffer.chan).inFlight ≤ 1) := by
  have hB : ((AsyncSim.new T "" SimConfig.default).1).hasReceiver = true := rfl
  have hrun : ∀ n : ℕ,
      Sys.step^[n] (Sys.start T vs) =
        { pending := vs.drop n, chan := Chan.fresh T,
          bridge := { (AsyncSim.new T "" SimConfig.default).1 with
            state := ((default : T) :: vs).getD (min n vs.length) default } } := by
    intro n
    exact sys_iterate_eq n vs (AsyncSim.new T "" SimConfig.default).1 hB
  refine ⟨?_, ?_, ?_, ?_⟩
  · simp [Sys.observe, hrun 0]
  · intro n h
    have hmin : min (n + 1) vs.length = n + 1 := by omega
    simp only [Sys.observe, hrun (n + 1), hmin, List.getD_cons_succ]
    rw [List.getD_eq_getElem _ _ h]
    simp
  · intro n hn
    have h1 : min n vs.length = vs.length := by omega
    have h2 : min vs.length vs.length = vs.length := min_self _
    simp only [Sys.observe, hrun n, hrun vs.length, h1, h2]
  · intro n
    rw [hrun n]
    refine ⟨by simp [Chan.inFlight, Chan.fresh], ?_⟩
    cases h : vs.drop n <;>
      simp [Sys.workerOffer, Chan.inFlight, Chan.fresh, h]

/-- Witness for C2 with the worker producing `[10, 20, 30]`: the first
observation is the default `0`, the next three are `10, 20, 30` in order,
and the fourth equals the third (last value repeats). -/
theorem asyncSim_rendezvous_order_witness :
    Sys.observe ℕ [10, 20, 30] 0 = 0 ∧
    Sys.observe ℕ [10, 20, 30] 1 = 10 ∧
    Sys.observe ℕ [10, 20, 30] 3 = 30 ∧
    Sys.observe ℕ [10, 20, 30] 4 = Sys.observe ℕ [10, 20, 30] 3 := by
  have h := asyncSim_rendezvous_order (T := ℕ) [10, 20, 30]
  refine ⟨h.1, ?_, ?_, ?_⟩
  · have h1 := h.2.1 0 (by decide)
    simpa using h1
  · have h3 := h.2.1 2 (by decide)
    simpa using h3
  · exact h.2.2.1 4 (by decide)

/-- Core facts about the catch-up loop: the loop count only grows and stops
at the cap; the final accumulator is the initial one minus one
`step_duration` per issued call (time-debt accounting); it never goes
negative; and when the pass stops short of the cap, the loop exited because
the accumulator dropped below one `step_duration`. -/
theorem schedLoop_props (s : ℚ) : ∀ (acc : ℚ) (l : ℕ),
    l ≤ (schedLoop s acc l).2 ∧
    ((schedLoop s acc l).2 ≤ 5000 ∨ (schedLoop s acc l).2 = l) ∧
    (schedLoop s acc l).1 =
      acc - (((schedLoop s acc l).2 : ℚ) - (l : ℚ)) * s ∧
    (0 ≤ acc → 0 ≤ (schedLoop s acc l).1) ∧
    ((schedLoop s acc l).2 < 5000 → (schedLoop s acc l).1 < s) := by
  intro acc l
  induction acc, l using schedLoop.induct s with
  | case1 acc l h ih =>
      obtain ⟨ih1, ih2, ih3, ih4, ih5⟩ := ih
      have hd : schedLoop s acc l = schedLoop s (acc - s) (l + 1) := by
        rw [schedLoop]
        exact dif_pos h
      rw [hd]
      push_cast at ih3
      refine ⟨by omega, by omega, ?_, ?_, ih5⟩
      · rw [ih3]
        ring
      · intro h0
        exact ih4 (by linarith [h.1])
  | case2 acc l h =>
      have hd : schedLoop s acc l = (acc, l) := by
        rw [schedLoop]
        exact dif_neg h
      rw [hd]
      refine ⟨le_refl l, Or.inr rfl, by simp, fun h0 => h0, ?_⟩
      intro hl
      by_contra hs
      exact h ⟨le_of_not_lt hs, hl⟩

/-- One unpaused scheduling pass, fully characterized: the pass never
issues more than 5000 calls; the new state keeps the pause flag and rate
and its accumulator equals the accumulated input minus one `step_duration`
per issued call; the new accumulator is non-negative; and when the
iteration cap was not hit, it is below one `step_duration`. -/
theorem frame_spec (R acc dt : ℚ) (hacc : 0 ≤ acc) (hdt : 0 ≤ dt) :
    ((App.mk false R acc).frame dt).2 ≤ 5000 ∧
    ((App.mk false R acc).frame dt).1 =
      App.mk false R
        (acc + dt - ((((App.mk false R acc).frame dt).2 : ℚ)) * (1 / R)) ∧
    0 ≤ acc + dt - ((((App.mk false R acc).frame dt).2 : ℚ)) * (1 / R) ∧
    (((App.mk false R acc).frame dt).2 < 5000 →
      acc + dt - ((((App.mk false R acc).frame dt).2 : ℚ)) * (1 / R)
        < 1 / R) := by
  have hp := schedLoop_props (1 / R) (acc + dt) 0
  obtain ⟨h1, h2, h3, h4, h5⟩ := hp
  have hfr : (App.mk false R acc).frame dt =
      ({ is_paused := false, updates_per_second := R,
         time_accumulator := (schedLoop (1 / R) (acc + dt) 0).1 },
       (schedLoop (1 / R) (acc + dt) 0).2) := by
    simp [App.frame]
  rw [hfr]
  have hacc0 : (0 : ℚ) ≤ acc + dt := by linarith
  have h3s : (schedLoop (1 / R) (acc + dt) 0).1 =
      acc + dt - ((schedLoop (1 / R) (acc + dt) 0).2 : ℚ) * (1 / R) := by
    simpa using h3
  refine ⟨by omega, ?_, ?_, ?_⟩
  · exact congrArg (App.mk false R) h3s
  · rw [← h3s]
    exact h4 hacc0
  · intro hlt
    rw [← h3s]
    exact h5 hlt

/-- `n` unpaused frames of elapsed time `dt` each, starting with an
in-range accumulator: the final state carries exactly the un-spent time
debt, which stays inside `[0, step_duration)` (no pass ever hits the cap,
because `R*dt ≤ 4999` keeps a single frame's debt under 5000 steps). -/
theorem runFrames_spec (R dt : ℚ) (hR : 0 < R) (hdt : 0 ≤ dt)
    (hcap : R * dt ≤ 4999) :
    ∀ (n : ℕ) (acc : ℚ), 0 ≤ acc → acc < 1 / R →
      ((App.mk false R acc).runFrames dt n).1 =
        App.mk false R (acc + n * dt -
          ((((App.mk false R acc).runFrames dt n).2 : ℚ)) * (1 / R)) ∧
      0 ≤ acc + n * dt -
          ((((App.mk false R acc).runFrames dt n).2 : ℚ)) * (1 / R) ∧
      acc + n * dt -
          ((((App.mk false R acc).runFrames dt n).2 : ℚ)) * (1 / R)
        < 1 / R := by
  have hstep : 0 < 1 / R := by positivity
  have h4999 : dt ≤ 4999 * (1 / R) := by
    rw [mul_one_div, le_div_iff₀ hR, mul_comm]
    exact hcap
  intro n
  induction n with
  | zero =>
      intro acc h0 h1
      simp only [App.runFrames, Nat.cast_zero, zero_mul, Nat.cast_ofNat]
      norm_num
      rw [one_div] at h1
      exact ⟨h0, h1⟩
  | succ n ih =>
      intro acc h0 h1
      have hf := frame_spec R acc dt h0 hdt
      obtain ⟨hf1, hf2, hf3, hf4⟩ := hf
      have hc1 : ((App.mk false R acc).frame dt).2 < 5000 := by
        rcases lt_or_eq_of_le hf1 with h | h
        · exact h
        · exfalso
          rw [h] at hf3
          push_cast at hf3
          linarith
      have hacc1lo := hf3
      have hacc1hi := hf4 hc1
      have hrec := ih (acc + dt - ((((App.mk false R acc).frame dt).2 : ℚ))
        * (1 / R)) hacc1lo hacc1hi
      have hunf : (App.mk false R acc).runFrames dt (n + 1) =
          ((((App.mk false R acc).frame dt).1.runFrames dt n).1,
            ((App.mk false R acc).frame dt).2 +
              (((App.mk false R acc).frame dt).1.runFrames dt n).2) := rfl
      rw [hunf, hf2]
      obtain ⟨hr1, hr2, hr3⟩ := hrec
      refine ⟨?_, ?_, ?_⟩
      · rw [hr1]
        refine congrArg (App.mk false R) ?_
        push_cast
        ring
      · push_cast
        linarith
      · push_cast
        linarith

/-- C3: for target rate `R`, fixed frame interval `dt`, and `n` unpaused
frames (total wall time `T = n*dt`), with no iteration-cap trigger
(`R*dt ≤ 4999` keeps every pass under the cap), the total number of
`update()` calls issued is exactly `⌊R*T⌋` — in particular within ±1 of
it — and at `R = 10` Hz with `dt = 1/60` s over 60 frames exactly 10
`update()` calls are issued. -/
theorem scheduler_rate_fidelity :
    (∀ (R dt : ℚ) (n : ℕ), 0 < R → 0 ≤ dt → R * dt ≤ 4999 →
      ((App.mk false R 0).runFrames dt n).2 = ⌊R * (n * dt)⌋₊) ∧
    ((App.mk false 10 0).runFrames (1/60) 60).2 = 10 := by
  have hgen : ∀ (R dt : ℚ) (n : ℕ), 0 < R → 0 ≤ dt → R * dt ≤ 4999 →
      ((App.mk false R 0).runFrames dt n).2 = ⌊R * (n * dt)⌋₊ := by
    intro R dt n hR hdt hcap
    have hstep : 0 < 1 / R := by positivity
    obtain ⟨h1, h2, h3⟩ :=
      runFrames_spec R dt hR hdt hcap n 0 (le_refl 0) hstep
    have hRne : R ≠ 0 := ne_of_gt hR
    have e1 : (((App.mk false R 0).runFrames dt n).2 : ℚ) * (1 / R) * R =
        (((App.mk false R 0).runFrames dt n).2 : ℚ) := by
      field_simp
    have hlow : ((((App.mk false R 0).runFrames dt n).2 : ℕ) : ℚ) ≤
        R * (n * dt) := by
      have h2a : ((((App.mk false R 0).runFrames dt n).2 : ℕ) : ℚ) * (1 / R)
          ≤ (n : ℚ) * dt := by linarith
      have h2b := mul_le_mul_of_nonneg_right h2a hR.le
      rw [e1] at h2b
      calc ((((App.mk false R 0).runFrames dt n).2 : ℕ) : ℚ)
          ≤ (n : ℚ) * dt * R := h2b
        _ = R * (n * dt) := by ring
    have hhigh : R * (n * dt) <
        ((((App.mk false R 0).runFrames dt n).2 : ℕ) : ℚ) + 1 := by
      have h3a : (n : ℚ) * dt <
          ((((App.mk false R 0).runFrames dt n).2 : ℕ) : ℚ) * (1 / R)
            + 1 / R := by linarith
      have h3b := mul_lt_mul_of_pos_right h3a hR
      have e2 : ((((App.mk false R 0).runFrames dt n).2 : ℕ) : ℚ) * (1 / R)
          * R + 1 / R * R =
          ((((App.mk false R 0).runFrames dt n).2 : ℕ) : ℚ) + 1 := by
        field_simp
      calc R * (n * dt) = (n : ℚ) * dt * R := by ring
        _ < (((((App.mk false R 0).runFrames dt n).2 : ℕ) : ℚ) * (1 / R)
              + 1 / R) * R := h3b
        _ = ((((App.mk false R 0).runFrames dt n).2 : ℕ) : ℚ) + 1 := by
              rw [add_mul]
              exact e2
    have h0 : (0 : ℚ) ≤ R * (n * dt) :=
      mul_nonneg hR.le (mul_nonneg (Nat.cast_nonneg n) hdt)
    exact ((Nat.floor_eq_iff h0).mpr ⟨hlow, hhigh⟩).symm
  refine ⟨hgen, ?_⟩
  have h := hgen 10 (1/60) 60 (by norm_num) (by norm_num) (by norm_num)
  rw [h]
  rw [show (10 : ℚ) * (((60 : ℕ) : ℚ) * (1/60)) = 10 by push_cast; ring]
  norm_num

/-- Witness for C3: the hypotheses hold at `R = 10`, `dt = 1/60`, `n = 60`,
and the scheduler issues exactly `⌊10 * 1⌋ = 10` calls there. -/
theorem scheduler_rate_fidelity_witness :
    (0 : ℚ) < 10 ∧ (0 : ℚ) ≤ 1/60 ∧ (10 : ℚ) * (1/60) ≤ 4999 ∧
    ((App.mk false 10 0).runFrames (1/60) 60).2 =
      ⌊(10 : ℚ) * (((60 : ℕ) : ℚ) * (1/60))⌋₊ :=
  ⟨by norm_num, by norm_num, by norm_num,
    scheduler_rate_fidelity.1 10 (1/60) 60 (by norm_num) (by norm_num)
      (by norm_num)⟩

/-- C4: immediately after an unpaused scheduling pass the accumulator is
non-negative; if the iteration cap was not hit it is moreover below
`step_duration = 1/target_rate`; if the cap was hit (5000 iterations) it is
bounded by the accumulated input minus `cap * step_duration`. -/
theorem scheduler_accumulator_bound (R acc dt : ℚ)
    (hacc : 0 ≤ acc) (hdt : 0 ≤ dt) :
    0 ≤ ((App.mk false R acc).frame dt).1.time_accumulator ∧
    (((App.mk false R acc).frame dt).2 < 5000 →
      ((App.mk false R acc).frame dt).1.time_accumulator < 1 / R) ∧
    (((App.mk false R acc).frame dt).2 = 5000 →
      ((App.mk false R acc).frame dt).1.time_accumulator ≤
        (acc + dt) - 5000 * (1 / R)) := by
  obtain ⟨hf1, hf2, hf3, hf4⟩ := frame_spec R acc dt hacc hdt
  simp only [hf2]
  refine ⟨hf3, hf4, ?_⟩
  intro h
  rw [h]
  push_cast
  linarith

/-- Witness for C4 at `R = 10`, `acc = 0`, `dt = 1/4`. -/
theorem scheduler_accumulator_bound_witness :
    0 ≤ ((App.mk false 10 0).frame (1/4)).1.time_accumulator ∧
    (((App.mk false 10 0).frame (1/4)).2 < 5000 →
      ((App.mk false 10 0).frame (1/4)).1.time_accumulator < 1 / 10) ∧
    (((App.mk false 10 0).frame (1/4)).2 = 5000 →
      ((App.mk false 10 0).frame (1/4)).1.time_accumulator ≤
        (0 + 1/4) - 5000 * (1 / 10)) :=
  scheduler_accumulator_bound 10 0 (1/4) (by norm_num) (by norm_num)

/-- C5: a single scheduling pass always terminates (`App.frame` is a total
function; the loop measure `5000 - loops` decreases) and issues at most
5000 `update()` calls no matter how much time debt has accumulated; the
accounting identity shows every step of debt beyond the issued calls stays
in the accumulator, carried to the next pass rather than processed. -/
theorem scheduler_pass_capped (a : App) (dt : ℚ) :
    (a.frame dt).2 ≤ 5000 ∧
    (a.is_paused = false →
      (a.frame dt).1.time_accumulator =
        a.time_accumulator + dt -
          ((a.frame dt).2 : ℚ) * (1 / a.updates_per_second)) := by
  by_cases hp : a.is_paused = true
  · constructor
    · simp [App.frame, hp]
    · intro h
      rw [hp] at h
      exact absurd h (by simp)
  · have hp2 : a.is_paused = false := by
      simpa using hp
    obtain ⟨h1, h2, h3, h4, h5⟩ :=
      schedLoop_props (1 / a.updates_per_second) (a.time_accumulator + dt) 0
    have hfr : a.frame dt =
        ({ a with time_accumulator :=
            (schedLoop (1 / a.updates_per_second)
              (a.time_accumulator + dt) 0).1 },
          (schedLoop (1 / a.updates_per_second)
            (a.time_accumulator + dt) 0).2) := by
      simp [App.frame, hp2]
    rw [hfr]
    refine ⟨by omega, fun _ => ?_⟩
    simpa using h3

/-- Witness for C5 with a 100-second debt at 100 Hz (Scenario-D style
backlog of 10000 owed steps). -/
theorem scheduler_pass_capped_witness :
    ((App.mk false 100 (100 : ℚ)).frame 0).2 ≤ 5000 ∧
    ((App.mk false 100 (100 : ℚ)).frame 0).1.time_accumulator =
      100 + 0 - (((App.mk false 100 (100 : ℚ)).frame 0).2 : ℚ) * (1 / 100) := by
  have h := scheduler_pass_capped (App.mk false 100 100) 0
  exact ⟨h.1, h.2 rfl⟩

/-- C6: while the pause flag is set, any number of consecutive frames of
any elapsed time issue zero `update()` calls and leave the whole scheduler
state — in particular the time accumulator — unchanged. -/
theorem scheduler_pause_frozen (a : App) (dt : ℚ) (n : ℕ)
    (hp : a.is_paused = true) :
    a.runFrames dt n = (a, 0) := by
  induction n with
  | zero => rfl
  | succ n ih =>
      have hfr : a.frame dt = (a, 0) := by
        simp [App.frame, hp]
      have hunf : a.runFrames dt (n + 1) =
          (((a.frame dt).1.runFrames dt n).1,
            (a.frame dt).2 + ((a.frame dt).1.runFrames dt n).2) := rfl
      rw [hunf, hfr]
      simp [ih]

/-- Witness for C6: five paused frames of `1/30` s at a non-zero
accumulator change nothing and issue no calls. -/
theorem scheduler_pause_frozen_witness :
    (App.mk true 60 7).runFrames (1/30) 5 = (App.mk true 60 7, 0) :=
  scheduler_pause_frozen (App.mk true 60 7) (1/30) 5 rfl

/-- Mapping every byte to `0` is the same as a zero-filled buffer of the
same length (the effect of `buffer.fill(0)`). -/
theorem map_zero_replicate : ∀ l : List ℕ,
    l.map (fun _ => 0) = List.replicate l.length 0 := by
  intro l
  induction l with
  | nil => rfl
  | cons a t ih => simp [ih, List.replicate_succ]

/-- A fold whose step preserves buffer length preserves buffer length. -/
theorem foldl_length_preserved {α : Type} (f : List ℕ → α → List ℕ)
    (hf : ∀ (b : List ℕ) (a : α), (f b a).length = b.length) :
    ∀ (l : List α) (b : List ℕ), (l.foldl f b).length = b.length := by
  intro l
  induction l with
  | nil => intro b; rfl
  | cons a t ih =>
      intro b
      rw [List.foldl_cons, ih, hf]

/-- The guarded RGB write never changes the buffer length. -/
theorem writeRGB_length (buf : List ℕ) (idx r g b : ℕ) :
    (writeRGB buf idx r g b).length = buf.length := by
  rw [writeRGB]
  split <;> simp

/-- Drawing one history bar never changes the buffer length. -/
theorem drawColumn_length (buf : List ℕ) (x len : ℕ) :
    (drawColumn buf x len).length = buf.length := by
  exact foldl_length_preserved _ (fun b y => writeRGB_length b _ 0 _ _) _ buf

/-- The per-cell triple expansion of `PixelFillSim::render` produces
exactly 3 bytes per cell. -/
theorem pixelBytes_length : ∀ l : List ℕ,
    (l.foldr (fun val acc =>
      (if val > 0 then [0, 255, 255] else [20, 20, 20]) ++ acc) []).length =
      3 * l.length := by
  intro l
  induction l with
  | nil => rfl
  | cons a t ih =>
      rw [List.foldr_cons, List.length_append, ih, List.length_cons]
      split <;> simp <;> omega

/-- `PixelFillSim::update` never changes the number of cells. -/
theorem pixelFill_update_cells_length (s : PixelFillSim) :
    (s.update).grid.cells.length = s.grid.cells.length := by
  rw [PixelFillSim.update]
  split <;> simp

/-- Any number of updates from `PixelFillSim::new` leaves 400×300 cells. -/
theorem pixelFill_cells_length : ∀ n : ℕ,
    (PixelFillSim.update^[n] PixelFillSim.new).grid.cells.length =
      400 * 300 := by
  intro n
  induction n with
  | zero =>
      rw [Function.iterate_zero_apply, PixelFillSim.new, PixelFillSim.reset,
        Grid.new]
      simp only [List.length_map, List.length_replicate]
  | succ n ih =>
      rw [Function.iterate_succ_apply', pixelFill_update_cells_length, ih]

/-- C8 counterexample: `NoSim::render` only overwrites the bytes already
present, so on an empty input buffer it returns an empty buffer — not one
of `400*300*3` bytes as the claim asserts for *any* input buffer. -/
theorem render_fixed_size_counterexample :
    NoSim.render [] = [] ∧ ([] : List ℕ).length ≠ 400 * 300 * 3 :=
  ⟨rfl, by decide⟩

/-- C8 amended: every variant's `render` fully overwrites the buffer as a
function of the current state alone.  `NoSim::render` zero-fills the input
buffer at its existing length; `PixelFillSim::render` ignores the incoming
buffer entirely and (from any state reachable from `new`) emits exactly
`400*300*3` bytes, 3 per cell; the async bridge with the Collatz renderer
preserves the input length and its output depends only on the snapshot and
that length.  The host always supplies a `400*300*3`-byte buffer, for
which all three therefore yield `400*300*3` bytes with no prior contents
persisting. -/
theorem render_buffer_contract :
    (∀ buffer : List ℕ, (NoSim.render buffer).length = buffer.length ∧
      NoSim.render buffer = List.replicate buffer.length 0) ∧
    (∀ (s : PixelFillSim) (b1 b2 : List ℕ), s.render b1 = s.render b2) ∧
    (∀ (n : ℕ) (buffer : List ℕ),
      ((PixelFillSim.update^[n] PixelFillSim.new).render buffer).length =
        400 * 300 * 3) ∧
    (∀ (s : AsyncSim CollatzState) (buffer : List ℕ),
      (AsyncSim.render p0014.render s buffer).length = buffer.length) ∧
    (∀ (s : AsyncSim CollatzState) (b1 b2 : List ℕ), b1.length = b2.length →
      AsyncSim.render p0014.render s b1 = AsyncSim.render p0014.render s b2)
    := by
  refine ⟨?_, ?_, ?_, ?_, ?_⟩
  · intro buffer
    exact ⟨by simp [NoSim.render], map_zero_replicate buffer⟩
  · intro s b1 b2
    rfl
  · intro n buffer
    rw [PixelFillSim.render, pixelBytes_length, pixelFill_cells_length]
  · intro s buffer
    have h := foldl_length_preserved
      (fun (b : List ℕ) (p : ℕ × ℕ) => drawColumn b p.1 p.2)
      (fun b p => drawColumn_length b p.1 p.2)
      ((s.state.history.take 400).enum) (buffer.map (fun _ => 0))
    rw [AsyncSim.render, p0014.render, h]
    simp
  · intro s b1 b2 h
    rw [AsyncSim.render, AsyncSim.render, p0014.render, p0014.render,
      map_zero_replicate b1, map_zero_replicate b2, h]

/-- Witness for C8's amended statement: the Collatz renderer's
length-only buffer dependence applied to two concrete equal-length
buffers. -/
theorem render_buffer_contract_witness :
    AsyncSim.render p0014.render
        { name := "w", config := collatzConfig,
          state := (default : CollatzState), hasReceiver := true }
        [1, 2, 3] =
      AsyncSim.render p0014.render
        { name := "w", config := collatzConfig,
          state := (default : CollatzState), hasReceiver := true }
        [4, 5, 6] :=
  render_buffer_contract.2.2.2.2 _ [1, 2, 3] [4, 5, 6] rfl

/-- C9 counterexample: with the Collatz capability active — whose config
is min 1.0 / max 50000.0 — the slider bounds are the hard-coded
`0.5..=10_000.0`, not the capability's `min_speed`/`max_speed`. -/
theorem slider_bounds_counterexample :
    sliderRange ≠ (collatzConfig.min_speed, collatzConfig.max_speed) := by
  intro h
  have h1 := congrArg Prod.fst h
  simp only [sliderRange, collatzConfig] at h1
  norm_num at h1

/-- C9 amended: the slider's bounds are the fixed constants 0.5 and 10000
for every loaded capability; the capability's rate configuration reaches
the host only through `default_speed`, which `load_sim` installs as the
active rate — `min_speed`/`max_speed` are never consumed. -/
theorem slider_bounds_hardcoded :
    sliderRange = (1/2, 10000) ∧
    (∀ (a : App) (cfg : SimConfig),
      (a.loadSim cfg).updates_per_second = cfg.default_speed) :=
  ⟨rfl, fun _ _ => rfl⟩

/-- C10: the cursor never passes the cell count — it is in bounds after
`new`, after `reset`, and is preserved by every `update` (so the cell
write `cells[cursor_idx] = 255` always happens under the in-bounds
guard); iterating `update` from `new` keeps the invariant; and once the
cursor equals the cell count, `update` is the identity — no failure, no
wrap-around. -/
theorem pixelFill_cursor_invariant :
    PixelFillSim.new.cursor_idx ≤ PixelFillSim.new.grid.cells.length ∧
    (∀ s : PixelFillSim,
      (s.reset).cursor_idx ≤ (s.reset).grid.cells.length) ∧
    (∀ s : PixelFillSim, s.cursor_idx ≤ s.grid.cells.length →
      (s.update).cursor_idx ≤ (s.update).grid.cells.length) ∧
    (∀ n : ℕ, (PixelFillSim.update^[n] PixelFillSim.new).cursor_idx ≤
      (PixelFillSim.update^[n] PixelFillSim.new).grid.cells.length) ∧
    (∀ s : PixelFillSim, s.cursor_idx = s.grid.cells.length →
      s.update = s) := by
  have hupd : ∀ s : PixelFillSim, s.cursor_idx ≤ s.grid.cells.length →
      (s.update).cursor_idx ≤ (s.update).grid.cells.length := by
    intro s hs
    rw [PixelFillSim.update]
    split
    · simp only [List.length_set]
      omega
    · exact hs
  refine ⟨Nat.zero_le _, fun s => Nat.zero_le _, hupd, ?_, ?_⟩
  · intro n
    induction n with
    | zero => exact Nat.zero_le _
    | succ n ih =>
        rw [Function.iterate_succ_apply']
        exact hupd _ ih
  · intro s hs
    rw [PixelFillSim.update]
    simp [hs]

/-- Witness for C10: three updates from `new` keep the cursor in bounds,
and on a concrete fully-filled 2×1 grid `update` is the identity. -/
theorem pixelFill_cursor_invariant_witness :
    (PixelFillSim.update^[3] PixelFillSim.new).cursor_idx ≤
      (PixelFillSim.update^[3] PixelFillSim.new).grid.cells.length ∧
    PixelFillSim.update
        { grid := { width := 2, height := 1, cells := [255, 255] },
          cursor_idx := 2 } =
      { grid := { width := 2, height := 1, cells := [255, 255] },
        cursor_idx := 2 } :=
  ⟨pixelFill_cursor_invariant.2.2.2.1 3,
    pixelFill_cursor_invariant.2.2.2.2 _ rfl⟩

/-- C1: `AsyncSim::update` is a non-blocking poll: with a receiver
installed, a waiting snapshot wholly replaces the state and is drained from
the channel; with no waiting snapshot — whether the channel is merely empty
or disconnected — bridge state and channel are left exactly as they were,
and the call still returns normally (the poll is a total function; an empty
poll is not an error). -/
theorem asyncSim_update_poll {T : Type} (s : AsyncSim T) (c : Chan T)
    (hr : s.hasReceiver = true) :
    (∀ v : T, c.slot = some v →
      s.update c = ({ s with state := v }, { c with slot := none })) ∧
    (c.slot = none → s.update c = (s, c)) := by
  constructor
  · intro v hv
    simp [AsyncSim.update, Chan.tryRecv, hr, hv]
  · intro hn
    simp [AsyncSim.update, Chan.tryRecv, hr, hn]

/-- Witness for C1 at `T := ℕ`: a waiting snapshot `7` replaces the state
`3`; an empty poll (connected or not) changes nothing. -/
theorem asyncSim_update_poll_witness :
    (let s : AsyncSim ℕ :=
      { name := "w", config := SimConfig.default, state := 3,
        hasReceiver := true }
     let cFull : Chan ℕ := { slot := some 7, connected := true }
     let cEmpty : Chan ℕ := { slot := none, connected := false }
     s.update cFull = ({ s with state := 7 }, { cFull with slot := none }) ∧
       s.update cEmpty = (s, cEmpty)) := by
  refine ⟨(asyncSim_update_poll _ _ rfl).1 7 rfl, ?_⟩
  exact (asyncSim_update_poll _ _ rfl).2 rfl

/-- C7: immediately after `reset()` the bridge's state is `T::default()`,
and `new(...)` — which constructs the record and immediately resets —
yields a bridge whose state is also `T::default()`. -/
theorem asyncSim_reset_default {T : Type} [Inhabited T] (s : AsyncSim T)
    (name : String) (config : SimConfig) :
    (s.reset).1.state = (default : T) ∧
    (AsyncSim.new T name config).1.state = (default : T) := by
  exact ⟨rfl, rfl⟩

/-- Witness for C7 at `T := ℕ` with a non-default pre-reset state. -/
theorem asyncSim_reset_default_witness :
    (({ name := "w", config := SimConfig.default, state := 42,
        hasReceiver := true } : AsyncSim ℕ).reset).1.state = (default : ℕ) ∧
    (AsyncSim.new ℕ "w" SimConfig.default).1.state = (default : ℕ) :=
  asyncSim_reset_default _ "w" SimConfig.default

end SimStation
